import Mathlib

/-!
Verification development for the GitTop notification rule-resolution and
processing pipeline.

The data model and the stateful operations are shallowly embedded from the
Rust sources under `src/` (`ui/screens/notifications/processing.rs`,
`ui/screens/notifications/screen.rs`, the rule-edit handlers under
`ui/features/`, and `ui/screens/settings/rule_engine/screen.rs`).  The rule
engine itself (`rule_engine/rules.rs`), the notification engine and helper
module (`notifications/engine.rs`, `notifications/helper.rs`) and the GitHub
record types are referenced by the sources but absent from the repository
snapshot; those definitions are modelled from the specification and are
marked `Modelled from the spec:` in their doc comments.

Machine integers: Rust `i32` priorities are modelled as `Int` (no arithmetic
is performed on them, only comparison, so overflow cannot occur);
timestamps are modelled as `Int` seconds.
-/

namespace GitTop

/-- Resolved verdict of rule evaluation (`RuleAction` in
`rule_engine/rules.rs`; the final source form uses `Important` for the
elevated action, the older screen snapshot calls the same variant
`Priority`). -/
inductive RuleAction
  | Show
  | Silent
  | Hide
  | Important
deriving DecidableEq, Repr

/-- Subject type of a notification record (`SubjectType` in the GitHub
client types; variants from §3 of the spec). -/
inductive SubjectType
  | Issue
  | PullRequest
  | Release
  | Discussion
  | CheckSuite
  | Commit
  | SecurityAlert
  | Other
deriving DecidableEq, Repr

/-- Reason code of a notification record (`NotificationReason` in the
GitHub client types; variants from §3 of the spec). -/
inductive NotificationReason
  | Mention
  | ReviewRequested
  | Assigned
  | Comment
  | CiActivity
  | Author
  | TeamMention
  | StateChange
  | OtherReason
deriving DecidableEq, Repr

/-- Display label of a reason, as used by `TypeRule::new` (which stores
`notification_type.label()`) and by the desktop-alert bodies. -/
def NotificationReason.label : NotificationReason → String
  | .Mention => "Mentioned"
  | .ReviewRequested => "Review Requested"
  | .Assigned => "Assigned"
  | .Comment => "Comment"
  | .CiActivity => "CI Activity"
  | .Author => "Author"
  | .TeamMention => "Team Mention"
  | .StateChange => "State Change"
  | .OtherReason => "Other"

/-- Display string of a subject type (Rust `Display` impl, used in desktop
alert titles). -/
def SubjectType.display : SubjectType → String
  | .Issue => "Issue"
  | .PullRequest => "Pull Request"
  | .Release => "Release"
  | .Discussion => "Discussion"
  | .CheckSuite => "Check Suite"
  | .Commit => "Commit"
  | .SecurityAlert => "Security Alert"
  | .Other => "Other"

/-- Day of week for account-rule schedules (`chrono::Weekday`). -/
inductive Weekday
  | Mon | Tue | Wed | Thu | Fri | Sat | Sun
deriving DecidableEq, Repr

/-- Behavior of an account rule outside its schedule window
(`OutsideScheduleBehavior` in `rule_engine/rules.rs`). -/
inductive OutsideScheduleBehavior
  | Suppress
  | AllowAnyway
deriving DecidableEq, Repr

/-- One upstream notification record (`NotificationView` in the GitHub
client; field list from §3 and from the field accesses in
`screen.rs`/`processing.rs`).  `updated_at` is the last-modified timestamp
in seconds. -/
structure NotificationView where
  id : String
  account : String
  repo_full_name : String
  subject_type : SubjectType
  reason : NotificationReason
  unread : Bool
  updated_at : Int
  title : String
  url : Option String
  latest_comment_url : Option String
deriving DecidableEq, Repr

/-- Per-account schedule rule (`AccountRule` in `rule_engine/rules.rs`;
fields from §3 and the accesses in `account_rules/update.rs`).  Times of
day are minutes since midnight. -/
structure AccountRule where
  id : String
  account : String
  enabled : Bool
  active_days : List Weekday
  start_time : Option Nat
  end_time : Option Nat
  outside_behavior : OutsideScheduleBehavior
deriving DecidableEq, Repr

/-- Modelled from the spec: `AccountRule::new` (§4.1) — `rules.rs` is absent
from the snapshot.  Defaults: enabled, all days active, no time window,
`AllowAnyway`; the rule is keyed by account name. -/
def AccountRule.new (account : String) : AccountRule :=
  { id := account
    account := account
    enabled := true
    active_days := [.Mon, .Tue, .Wed, .Thu, .Fri, .Sat, .Sun]
    start_time := none
    end_time := none
    outside_behavior := .AllowAnyway }

/-- Per-organization rule (`OrgRule` in `rule_engine/rules.rs`; fields from
§3 and `rule_engine/screen.rs`). -/
structure OrgRule where
  id : String
  org : String
  enabled : Bool
  action : RuleAction
  priority : Int
deriving DecidableEq, Repr

/-- Per-type rule (`TypeRule` in `rule_engine/rules.rs`; fields from §3 and
`type_rules/update.rs`).  `notification_type` is the reason label string,
as stored by `TypeRule::new(state.notification_type.label(), ..)`. -/
structure TypeRule where
  id : String
  notification_type : String
  account : Option String
  priority : Int
  action : RuleAction
  enabled : Bool
deriving DecidableEq, Repr

/-- Modelled from the spec: `TypeRule::new` (§4.1) — `rules.rs` is absent
from the snapshot.  A fresh unique id is generated at creation (passed here
explicitly); the action is a default overwritten by the caller in
`TypeRuleMessage::Add`. -/
def TypeRule.new (freshId : String) (label : String) (account : Option String)
    (priority : Int) : TypeRule :=
  { id := freshId
    notification_type := label
    account := account
    priority := priority
    action := .Show
    enabled := true }

/-- Full rule set (`NotificationRuleSet` in `rule_engine/rules.rs`; shape
from §3 and the field accesses in the edit handlers). -/
structure NotificationRuleSet where
  enabled : Bool
  account_rules : List AccountRule
  org_rules : List OrgRule
  type_rules : List TypeRule
deriving DecidableEq, Repr

/-- Evaluation instant handed to the rule engine: current weekday and
minute of day (the engine consults the wall clock for schedule checks). -/
structure Clock where
  weekday : Weekday
  minuteOfDay : Nat
deriving DecidableEq, Repr

/-- ASCII-case-insensitive string equality (`str::eq_ignore_ascii_case`). -/
def eqIgnoreCase (a b : String) : Bool :=
  a.data.map Char.toLower = b.data.map Char.toLower

/-- Organization part of a `owner/repo` full name: the prefix before the
first slash (§4.2 step 1). -/
def orgOfRepo (s : String) : String :=
  String.mk (s.data.takeWhile (fun c => c ≠ '/'))

/-- Modelled from the spec: schedule check of §4.2 step 2 — `rules.rs` is
absent from the snapshot.  A matching account rule is outside schedule when
the current weekday is not among its active days, or when both window
bounds are set and the current time of day falls outside them. -/
def scheduleOutside (rule : AccountRule) (now : Clock) : Bool :=
  ¬ rule.active_days.contains now.weekday ||
    (match rule.start_time, rule.end_time with
     | some s, some e => ¬ (s ≤ now.minuteOfDay ∧ now.minuteOfDay ≤ e)
     | _, _ => false)

/-- Modelled from the spec: the contributing `(action, priority)` pairs of
§4.2 steps 1–2 — `rules.rs` is absent from the snapshot.  A disabled rule
set contributes nothing (§7: the disabled fallback shows everything).  The
matching account rule contributes a synthetic `(Hide, 0)` only when outside
schedule with `Suppress`; org rules match on the repository organization;
type rules match on the reason label and on the optional account scope. -/
def contributions (r : NotificationView) (rs : NotificationRuleSet)
    (now : Clock) : List (RuleAction × Int) :=
  if ¬ rs.enabled then []
  else
    rs.account_rules.filterMap (fun a =>
      if a.enabled ∧ eqIgnoreCase a.account r.account ∧ scheduleOutside a now
          ∧ a.outside_behavior = .Suppress
      then some (.Hide, 0) else none)
    ++ rs.org_rules.filterMap (fun o =>
      if o.enabled ∧ o.org = orgOfRepo r.repo_full_name
      then some (o.action, o.priority) else none)
    ++ rs.type_rules.filterMap (fun t =>
      if t.enabled ∧ t.notification_type = r.reason.label
          ∧ (t.account = none ∨ t.account = some r.account)
      then some (t.action, t.priority) else none)

/-- Restrictiveness rank for the priority tie-break of §4.2 step 3c:
`Hide > Silent > Show`. -/
def restrictRank : RuleAction → Nat
  | .Hide => 3
  | .Silent => 2
  | .Show => 1
  | .Important => 0

/-- Modelled from the spec: pairwise resolution of two contributions per
§4.2 step 3 — `rules.rs` is absent from the snapshot.  `Important` wins
unconditionally; otherwise the higher numeric priority wins; on a tie the
more restrictive action wins. -/
def resolveBetter (a b : RuleAction × Int) : RuleAction × Int :=
  if a.1 = .Important then a
  else if b.1 = .Important then b
  else if a.2 > b.2 then a
  else if b.2 > a.2 then b
  else if restrictRank b.1 > restrictRank a.1 then b
  else a

/-- Modelled from the spec: `RuleEngine::evaluate` of §4.2 — `rules.rs` is
absent from the snapshot.  With no matching rule the default is `(Show, 0)`
(§4.2 step 3d); otherwise the contributions are resolved pairwise. -/
def evaluate (r : NotificationView) (rs : NotificationRuleSet)
    (now : Clock) : RuleAction × Int :=
  match contributions r rs now with
  | [] => (.Show, 0)
  | c :: cs => cs.foldl resolveBetter c

/-- User-selected display filters (`FilterSettings` in
`notifications/helper.rs`; fields from the accesses in
`processing.rs`/`screen.rs`). -/
structure FilterSettings where
  show_all : Bool
  selected_type : Option SubjectType
  selected_repo : Option String
deriving DecidableEq, Repr

/-- Default filters: unread-focused mode with no facet selected. -/
def FilterSettings.default : FilterSettings :=
  { show_all := false, selected_type := none, selected_repo := none }

/-- Modelled from the spec: `apply_filters` of §4.3 step 3 —
`notifications/helper.rs` is absent from the snapshot.  Keeps a record when
it is unread (unless "show all" is set), matches the selected type (when
one is set) and matches the selected repository (when one is set). -/
def applyFilters (records : List NotificationView)
    (filters : FilterSettings) : List NotificationView :=
  records.filter (fun n =>
    (filters.show_all || n.unread)
    && (match filters.selected_type with
        | some t => n.subject_type = t
        | none => true)
    && (match filters.selected_repo with
        | some repo => n.repo_full_name = repo
        | none => true))

/-- One record paired with its resolved action and effective priority
(`ProcessedNotification` in `notifications/helper.rs`; shape from §3). -/
structure ProcessedNotification where
  notification : NotificationView
  action : RuleAction
  priority : Int
deriving DecidableEq, Repr

/-- Modelled from the spec: `NotificationEngine::process_all` of §4.3
step 4 — `notifications/engine.rs` is absent from the snapshot.  Every
record is run through the rule engine and records resolved to `Hide` are
dropped. -/
def processAll (rules : NotificationRuleSet) (now : Clock)
    (records : List NotificationView) : List ProcessedNotification :=
  records.filterMap (fun n =>
    let ap := evaluate n rules now
    if ap.1 = .Hide then none
    else some { notification := n, action := ap.1, priority := ap.2 })

/-- Distinct elements of a list in order of first appearance (used by the
facet counters). -/
def keysOf {α : Type} [DecidableEq α] (l : List α) : List α :=
  l.foldl (fun acc x => if x ∈ acc then acc else acc ++ [x]) []

/-- Modelled from the spec: `count_by_type` of §4.3 step 1 —
`notifications/helper.rs` is absent from the snapshot.  One entry per
subject type occurring in the input, with the number of records of that
type. -/
def count_by_type (records : List NotificationView) :
    List (SubjectType × Nat) :=
  (keysOf (records.map (·.subject_type))).map (fun t =>
    (t, records.countP (fun n => n.subject_type = t)))

/-- Modelled from the spec: `count_by_repo` of §4.3 step 1 —
`notifications/helper.rs` is absent from the snapshot.  One entry per
repository full name occurring in the input, with the number of records in
that repository. -/
def count_by_repo (records : List NotificationView) :
    List (String × Nat) :=
  (keysOf (records.map (·.repo_full_name))).map (fun repo =>
    (repo, records.countP (fun n => n.repo_full_name = repo)))

/-- Display bucket (`NotificationGroup` in `notifications/helper.rs`; shape
from §3). -/
structure NotificationGroup where
  title : String
  notifications : List ProcessedNotification
  is_priority : Bool
  is_expanded : Bool
deriving DecidableEq, Repr

/-- Modelled from the spec: `group_processed_notifications` of §4.3
step 7 — `notifications/helper.rs` is absent from the snapshot.  A
dedicated "Priority" bucket holding every `Important` record is emitted
first only when `show_priority` is set; the remaining records are bucketed
by time since last update relative to `nowTs` (within one day = "Today",
otherwise "Earlier"). -/
def group_processed_notifications (nowTs : Int)
    (ps : List ProcessedNotification) (show_priority : Bool) :
    List NotificationGroup :=
  let prio := ps.filter (fun p => p.action = .Important)
  let rest := if show_priority
    then ps.filter (fun p => ¬ p.action = .Important) else ps
  let today := rest.filter (fun p => nowTs - p.notification.updated_at < 86400)
  let earlier := rest.filter (fun p => ¬ (nowTs - p.notification.updated_at < 86400))
  (if show_priority
   then [{ title := "Priority", notifications := prio,
           is_priority := true, is_expanded := true }]
   else [])
  ++ [{ title := "Today", notifications := today,
        is_priority := false, is_expanded := true },
      { title := "Earlier", notifications := earlier,
        is_priority := false, is_expanded := true }]

/-- Seen-timestamp map (`HashMap<String, DateTime<Utc>>` in `screen.rs`),
modelled as an association list with unique keys. -/
abbrev SeenMap : Type := List (String × Int)

/-- Insertion into the seen map (`HashMap::insert`): replaces the entry of
an existing key, otherwise appends. -/
def seenInsert (m : SeenMap) (id : String) (ts : Int) : SeenMap :=
  if m.any (fun kv => kv.1 = id) then
    m.map (fun kv => if kv.1 = id then (id, ts) else kv)
  else m ++ [(id, ts)]

/-- Lookup in the seen map (`HashMap::get`). -/
def seenLookup (m : SeenMap) (id : String) : Option Int :=
  (List.find? (fun kv => kv.1 = id) m).map (·.2)

/-- Keys of the seen map. -/
def seenKeys (m : SeenMap) : List String := m.map (·.1)

/-- Insertion of every fetched record's id and timestamp, in order
(the `for n in &notifications { insert(...) }` loop of `screen.rs`). -/
def seenInsertAll (m : SeenMap) (records : List NotificationView) : SeenMap :=
  records.foldl (fun acc n => seenInsert acc n.id n.updated_at) m

/-- Modelled from the spec: the newness test of §4.5 —
`notifications/engine.rs` is absent from the snapshot.  A record is new
when its id is absent from the seen map or present with a different
timestamp. -/
def isNewRecord (seen : SeenMap) (p : ProcessedNotification) : Bool :=
  match seenLookup seen p.notification.id with
  | none => true
  | some ts => ¬ ts = p.notification.updated_at

/-- Alert batch split into priority and regular parts
(`DesktopNotificationBatch` in `notifications/engine.rs`). -/
structure DesktopNotificationBatch where
  priority : List ProcessedNotification
  regular : List ProcessedNotification
deriving DecidableEq, Repr

/-- Modelled from the spec: `DesktopNotificationBatch::from_processed` of
§4.5 — `notifications/engine.rs` is absent from the snapshot.  New
`Important` records go to `priority`; the remaining new, non-hidden records
go to `regular`. -/
def DesktopNotificationBatch.from_processed
    (processed : List ProcessedNotification) (seen : SeenMap) :
    DesktopNotificationBatch :=
  { priority := processed.filter (fun p =>
      isNewRecord seen p && p.action = .Important)
    regular := processed.filter (fun p =>
      isNewRecord seen p && ¬ p.action = .Important && ¬ p.action = .Hide) }

/-- Emptiness of an alert batch (`DesktopNotificationBatch::is_empty`). -/
def DesktopNotificationBatch.isEmptyBatch (b : DesktopNotificationBatch) : Bool :=
  b.priority.isEmpty && b.regular.isEmpty

/-- Modelled from the spec: `api_url_to_web_url` — the URL translation in
`notifications/helper.rs` is absent from the snapshot and is opaque
display-only plumbing (§6); it is kept abstract as the identity. -/
def api_url_to_web_url (u : String) : String := u

/-- One payload handed to the platform notifier (`crate::platform::notify`
arguments: title, body, optional URL). -/
structure NotifyCall where
  title : String
  body : String
  url : Option String
deriving DecidableEq, Repr

/-- Application of a function to the first list element satisfying a
predicate (Rust `iter_mut().find(..)` followed by a field assignment). -/
def setFirst {α : Type} (p : α → Bool) (f : α → α) : List α → List α
  | [] => []
  | x :: xs => if p x then f x :: xs else x :: setFirst p f xs

/-- Replacement of the tracker entries of the current account
(`update_cross_account_priority` in `processing.rs` lines 139–150 and
`screen.rs` lines 163–180): entries of the current account are removed and
the current run's `Important`-and-unread processed records are appended. -/
def updateCrossAccountPriority (cross : List ProcessedNotification)
    (processed : List ProcessedNotification) (current_account : String) :
    List ProcessedNotification :=
  cross.filter (fun p => ¬ p.notification.account = current_account)
  ++ processed.filter (fun p => p.action = .Important ∧ p.notification.unread)

/-- Set handed to grouping (`rebuild_groups` in `processing.rs` lines
95–115 and `screen.rs` lines 207–234): the processed set alone in
"show all" mode, otherwise the processed set with other accounts' unread
tracker entries appended, de-duplicated by record id. -/
def displayedSet (processed cross : List ProcessedNotification)
    (show_all : Bool) (current_account : String) :
    List ProcessedNotification :=
  if show_all then processed
  else
    let other_account_priority := cross.filter (fun p =>
      ¬ p.notification.account = current_account ∧ p.notification.unread)
    other_account_priority.foldl (fun combined p =>
      if combined.any (fun q => q.notification.id = p.notification.id)
      then combined else combined ++ [p]) processed

/-- Processing pipeline state (`ProcessingState` in `processing.rs`). -/
structure ProcessingState where
  all_notifications : List NotificationView
  filtered_notifications : List NotificationView
  processed_notifications : List ProcessedNotification
  groups : List NotificationGroup
  rules : NotificationRuleSet
  cross_account_priority : List ProcessedNotification
  type_counts : List (SubjectType × Nat)
  repo_counts : List (String × Nat)
deriving DecidableEq, Repr

/-- Pipeline run (`ProcessingState::rebuild_groups` in `processing.rs`
lines 48–131).  The evaluation instant of the rule engine and the grouping
reference time, ambient in the Rust code, are explicit arguments.  Returns
the new state together with the (possibly auto-reset) filters, which the
Rust mutates through `&mut FilterSettings`. -/
def ProcessingState.rebuildGroups (st : ProcessingState)
    (filters : FilterSettings) (now : Clock) (nowTs : Int)
    (current_account : String) : ProcessingState × FilterSettings :=
  let notifications_for_types := match filters.selected_repo with
    | some repo => st.all_notifications.filter (fun n => n.repo_full_name = repo)
    | none => st.all_notifications
  let notifications_for_repos := match filters.selected_type with
    | some selected_type =>
      st.all_notifications.filter (fun n => n.subject_type = selected_type)
    | none => st.all_notifications
  let type_counts := count_by_type notifications_for_types
  let repo_counts := count_by_repo notifications_for_repos
  let filters := match filters.selected_type with
    | some selected_type =>
      if type_counts.any (fun tc => tc.1 = selected_type ∧ 0 < tc.2)
      then filters else { filters with selected_type := none }
    | none => filters
  let filters := match filters.selected_repo with
    | some selected_repo =>
      if repo_counts.any (fun rc => rc.1 = selected_repo ∧ 0 < rc.2)
      then filters else { filters with selected_repo := none }
    | none => filters
  let filtered_notifications := applyFilters st.all_notifications filters
  let processed_notifications := processAll st.rules now filtered_notifications
  let cross_account_priority := updateCrossAccountPriority
    st.cross_account_priority processed_notifications current_account
  let all_processed := displayedSet processed_notifications
    cross_account_priority filters.show_all current_account
  let previous_expansion := st.groups.map (fun g => (g.title, g.is_expanded))
  let show_priority_group := ¬ filters.show_all
  let groups := (group_processed_notifications nowTs all_processed
      show_priority_group).map (fun g =>
    match previous_expansion.find? (fun te => te.1 = g.title) with
    | some te => { g with is_expanded := te.2 }
    | none => g)
  ({ st with
      filtered_notifications := filtered_notifications
      processed_notifications := processed_notifications
      cross_account_priority := cross_account_priority
      type_counts := type_counts
      repo_counts := repo_counts
      groups := groups },
   filters)

/-- Notifications screen state (`NotificationsScreen` in `screen.rs`).
The GPU scroll floats, the client handle and the fetched details payload
are outside the model; `user_login` is the current account
(`self.user.login`). -/
structure NotificationsScreen where
  user_login : String
  all_notifications : List NotificationView
  filtered_notifications : List NotificationView
  processed_notifications : List ProcessedNotification
  groups : List NotificationGroup
  filters : FilterSettings
  is_loading : Bool
  error_message : Option String
  type_counts : List (SubjectType × Nat)
  repo_counts : List (String × Nat)
  seen_notification_timestamps : SeenMap
  rules : NotificationRuleSet
  cross_account_priority : List ProcessedNotification
  selected_notification_id : Option String
  is_loading_details : Bool
  selected_ids : List String
  bulk_mode : Bool
deriving DecidableEq, Repr

/-- Screen-level regrouping (`NotificationsScreen::rebuild_groups` in
`screen.rs` lines 194–239): facet counts over all records, filter, rule
engine, tracker update, cross-account merge, grouping. -/
def NotificationsScreen.rebuildGroups (s : NotificationsScreen)
    (now : Clock) (nowTs : Int) : NotificationsScreen :=
  let type_counts := count_by_type s.all_notifications
  let repo_counts := count_by_repo s.all_notifications
  let filtered_notifications := applyFilters s.all_notifications s.filters
  let processed_notifications := processAll s.rules now filtered_notifications
  let cross_account_priority := updateCrossAccountPriority
    s.cross_account_priority processed_notifications s.user_login
  let all_processed := displayedSet processed_notifications
    cross_account_priority s.filters.show_all s.user_login
  let show_priority_group := ¬ s.filters.show_all
  let groups := group_processed_notifications nowTs all_processed
    show_priority_group
  { s with
      type_counts := type_counts
      repo_counts := repo_counts
      filtered_notifications := filtered_notifications
      processed_notifications := processed_notifications
      cross_account_priority := cross_account_priority
      groups := groups }

/-- Desktop-alert emission (`send_desktop_notifications` in `screen.rs`
lines 246–315), returned as the list of notifier payloads instead of the
side effect.  Priority alerts are sent individually; a single regular
record gets its own alert; several regular records get one summary naming
up to three titles. -/
def sendDesktopNotifications (processed : List ProcessedNotification)
    (seen : SeenMap) : List NotifyCall :=
  let batch := DesktopNotificationBatch.from_processed processed seen
  if batch.isEmptyBatch then []
  else
    let priorityCalls := batch.priority.map (fun p =>
      { title := "Priority: " ++ p.notification.repo_full_name ++ " - "
          ++ p.notification.subject_type.display
        body := p.notification.title ++ "\n" ++ p.notification.reason.label
        url := p.notification.url.map api_url_to_web_url })
    let regularCalls := match batch.regular with
      | [] => []
      | [r] =>
        [{ title := r.notification.repo_full_name ++ " - "
             ++ r.notification.subject_type.display
           body := r.notification.title ++ "\n" ++ r.notification.reason.label
           url := r.notification.url.map api_url_to_web_url }]
      | rs =>
        let body := String.intercalate "\n"
          ((rs.take 3).map (fun p => "• " ++ p.notification.title))
        let body := if rs.length > 3
          then body ++ "\\n...and " ++ toString (rs.length - 3) ++ " more"
          else body
        [{ title := toString rs.length ++ " new GitHub notifications"
           body := body
           url := none }]
    priorityCalls ++ regularCalls

/-- Ambient inputs of one `update` step: window visibility, the mock
records injected by `--mock-notifications` (empty when the flag is unset),
the evaluation instant, and the delivery outcome of each emitted alert.
The Rust discards the notifier's result, so `deliverOk` is never read by
the transition. -/
structure Env where
  is_hidden : Bool
  mocks : List NotificationView
  now : Clock
  nowTs : Int
  deliverOk : Nat → Bool

/-- Messages handled by `NotificationsScreen::update` (`screen.rs` lines
317–659); payload results carry only what the handlers inspect. -/
inductive NotificationMessage
  | TogglePowerMode
  | Refresh
  | RefreshComplete (result : Except String (List NotificationView))
  | Open (id : String)
  | MarkAsRead (id : String)
  | MarkAsReadComplete (id : String) (ok : Bool)
  | MarkAllAsRead
  | MarkAllAsReadComplete (ok : Bool)
  | ToggleShowAll
  | Logout
  | ToggleGroup (index : Nat)
  | SelectType (t : Option SubjectType)
  | SelectRepo (repo : Option String)
  | MarkAsDone (id : String)
  | MarkAsDoneComplete (id : String) (ok : Bool)
  | MuteThread (id : String)
  | MuteThreadComplete (id : String) (ok : Bool)
  | OpenSettings
  | OpenRuleEngine
  | SwitchAccount (account : String)
  | OnScroll
  | SelectNotification (id : String)
  | SelectComplete (id : String) (ok : Bool)
  | OpenInBrowser
  | ToggleBulkMode
  | ToggleSelect (id : String)
  | SelectAll
  | ClearSelection
  | BulkMarkAsRead
  | BulkMarkAsDone

/-- State transition of the notifications screen
(`NotificationsScreen::update`, `screen.rs` lines 317–659).  Returns the
new state and the desktop-alert payloads emitted during the step; spawned
asynchronous tasks deliver their results as later messages and are not
part of the state. -/
def NotificationsScreen.update (s : NotificationsScreen)
    (msg : NotificationMessage) (env : Env) :
    NotificationsScreen × List NotifyCall :=
  match msg with
  | .TogglePowerMode => (s, [])
  | .Refresh => ({ s with is_loading := true, error_message := none }, [])
  | .RefreshComplete result =>
    let s := { s with is_loading := false }
    match result with
    | .ok fetched =>
      let notifications := fetched ++ env.mocks
      let processed_for_desktop := processAll s.rules env.now notifications
      let calls := if env.is_hidden
        then sendDesktopNotifications processed_for_desktop
          s.seen_notification_timestamps
        else []
      let seen := seenInsertAll s.seen_notification_timestamps notifications
      let seen := if seen.length > 500
        then seen.filter (fun kv => notifications.any (fun n => n.id = kv.1))
        else seen
      let s := { s with seen_notification_timestamps := seen }
      let s := if env.is_hidden then s
        else ({ s with all_notifications := notifications }).rebuildGroups
          env.now env.nowTs
      ({ s with error_message := none }, calls)
    | .error e => ({ s with error_message := some e }, [])
  | .Open _ => (s, [])
  | .MarkAsRead _ => (s, [])
  | .MarkAsReadComplete id ok =>
    if ok ∧ s.all_notifications.any (fun n => n.id = id) then
      let alln := setFirst (fun n => n.id = id)
        (fun n => { n with unread := false }) s.all_notifications
      (({ s with all_notifications := alln }).rebuildGroups env.now env.nowTs, [])
    else (s, [])
  | .MarkAllAsRead =>
    let alln := s.all_notifications.map (fun n => { n with unread := false })
    (({ s with all_notifications := alln }).rebuildGroups env.now env.nowTs, [])
  | .MarkAllAsReadComplete _ => ({ s with is_loading := true }, [])
  | .ToggleShowAll =>
    ({ s with
        filters := { s.filters with show_all := ¬ s.filters.show_all }
        is_loading := true }, [])
  | .Logout => (s, [])
  | .ToggleGroup index =>
    match s.groups.get? index with
    | some g =>
      let gs := s.groups.set index { g with is_expanded := ¬ g.is_expanded }
      ({ s with groups := gs }, [])
    | none => (s, [])
  | .SelectType t =>
    let f := { s.filters with selected_type := t, selected_repo := none }
    (({ s with filters := f }).rebuildGroups env.now env.nowTs, [])
  | .SelectRepo repo =>
    let f := { s.filters with selected_repo := repo, selected_type := none }
    (({ s with filters := f }).rebuildGroups env.now env.nowTs, [])
  | .MarkAsDone _ => (s, [])
  | .MarkAsDoneComplete id ok =>
    if ok then
      let alln := s.all_notifications.filter (fun n => ¬ n.id = id)
      (({ s with all_notifications := alln }).rebuildGroups env.now env.nowTs, [])
    else (s, [])
  | .MuteThread _ => (s, [])
  | .MuteThreadComplete id ok =>
    if ok then
      let alln := s.all_notifications.filter (fun n => ¬ n.id = id)
      (({ s with all_notifications := alln }).rebuildGroups env.now env.nowTs, [])
    else (s, [])
  | .OpenSettings => (s, [])
  | .OpenRuleEngine => (s, [])
  | .SwitchAccount _ => (s, [])
  | .OnScroll => (s, [])
  | .SelectNotification id =>
    if s.all_notifications.any (fun n => n.id = id) then
      ({ s with selected_notification_id := some id
                is_loading_details := true }, [])
    else (s, [])
  | .SelectComplete id _ =>
    if s.selected_notification_id = some id then
      ({ s with is_loading_details := false }, [])
    else (s, [])
  | .OpenInBrowser => (s, [])
  | .ToggleBulkMode =>
    let s := { s with bulk_mode := ¬ s.bulk_mode }
    (if ¬ s.bulk_mode then { s with selected_ids := [] } else s, [])
  | .ToggleSelect id =>
    if id ∈ s.selected_ids then
      ({ s with selected_ids := s.selected_ids.filter (fun x => ¬ x = id) }, [])
    else ({ s with selected_ids := s.selected_ids ++ [id] }, [])
  | .SelectAll =>
    let sel := s.filtered_notifications.foldl
      (fun acc n => if n.id ∈ acc then acc else acc ++ [n.id]) s.selected_ids
    ({ s with selected_ids := sel }, [])
  | .ClearSelection => ({ s with selected_ids := [] }, [])
  | .BulkMarkAsRead =>
    let alln := s.selected_ids.foldl
      (fun acc id => setFirst (fun n => n.id = id)
        (fun n => { n with unread := false }) acc) s.all_notifications
    let s2 := ({ s with all_notifications := alln }).rebuildGroups
      env.now env.nowTs
    ({ s2 with selected_ids := [], bulk_mode := false }, [])
  | .BulkMarkAsDone =>
    let alln := s.all_notifications.filter (fun n => ¬ n.id ∈ s.selected_ids)
    let s2 := ({ s with all_notifications := alln }).rebuildGroups
      env.now env.nowTs
    ({ s2 with selected_ids := [], bulk_mode := false }, [])

/-- Outcome of `NotificationRuleSet::save` (a `Result` in Rust); every
caller discards it with `let _ = rules.save();`. -/
abbrev SaveOutcome : Type := Except String Unit

/-- Modelled from the spec: parse of a `"HH:MM"` time-of-day string
(`chrono::NaiveTime::parse_from_str(s, "%H:%M")` in
`account_rules/update.rs`), returning minutes since midnight; a malformed
string parses to `none` (§4.2 failure semantics). -/
def parseTimeHM (s : String) : Option Nat :=
  match s.splitOn ":" with
  | [h, m] =>
    match h.toNat?, m.toNat? with
    | some hh, some mm =>
      if hh < 24 ∧ mm < 60 then some (hh * 60 + mm) else none
    | _, _ => none
  | _ => none

/-- Form state of the type-rule editor (`TypeRuleFormState` in
`type_rules/state.rs`). -/
structure TypeRuleFormState where
  notification_type : NotificationReason
  account : Option String
  priority : Int
  action : RuleAction
  expanded_groups : List String
deriving DecidableEq, Repr

/-- Reset of the type-rule form after an add (`reset_form` in
`type_rules/state.rs`). -/
def TypeRuleFormState.reset_form (st : TypeRuleFormState) : TypeRuleFormState :=
  { st with account := none, priority := 0, action := .Show }

/-- Messages of the type-rule editor (`TypeRuleMessage` in
`type_rules/message.rs`). -/
inductive TypeRuleMessage
  | Toggle (id : String) (enabled : Bool)
  | Delete (id : String)
  | Duplicate (id : String)
  | ToggleGroup (group_name : String)
  | FormTypeChanged (r : NotificationReason)
  | FormAccountChanged (s : String)
  | FormPriorityChanged (p : Int)
  | FormActionChanged (a : RuleAction)
  | Add
deriving DecidableEq, Repr

/-- Type-rule update handler (`update_type_rule` in
`type_rules/update.rs` lines 13–112).  The fresh id drawn by
`uuid::Uuid::new_v4()` and the outcome of `rules.save()` are explicit
arguments; the Rust binds the latter to `_`. -/
def update_type_rule (state : TypeRuleFormState) (msg : TypeRuleMessage)
    (rules : NotificationRuleSet) (freshId : String)
    (saveResult : SaveOutcome) : TypeRuleFormState × NotificationRuleSet :=
  match msg with
  | .Toggle id enabled =>
    let tr := setFirst (fun r => r.id = id)
      (fun r => { r with enabled := enabled }) rules.type_rules
    let _ := saveResult
    (state, { rules with type_rules := tr })
  | .Delete id =>
    let tr := rules.type_rules.filter (fun r => ¬ r.id = id)
    let _ := saveResult
    (state, { rules with type_rules := tr })
  | .Duplicate id =>
    match rules.type_rules.find? (fun r => r.id = id) with
    | some rule =>
      let new_rule := { rule with id := freshId }
      let _ := saveResult
      (state, { rules with type_rules := rules.type_rules ++ [new_rule] })
    | none => (state, rules)
  | .ToggleGroup group_name =>
    if group_name ∈ state.expanded_groups then
      ({ state with expanded_groups :=
          state.expanded_groups.filter (fun g => ¬ g = group_name) }, rules)
    else
      ({ state with expanded_groups :=
          state.expanded_groups ++ [group_name] }, rules)
  | .FormTypeChanged r => ({ state with notification_type := r }, rules)
  | .FormAccountChanged str =>
    let account := if str = "Global" ∨ str.trim = "" then none else some str
    ({ state with account := account }, rules)
  | .FormPriorityChanged p => ({ state with priority := p }, rules)
  | .FormActionChanged a => ({ state with action := a }, rules)
  | .Add =>
    let rule := { TypeRule.new freshId state.notification_type.label
        state.account state.priority with action := state.action }
    let _ := saveResult
    (state.reset_form, { rules with type_rules := rules.type_rules ++ [rule] })

/-- State of the account-rules editor (`AccountRulesState` in
`account_rules/state.rs`). -/
structure AccountRulesState where
  selected_account_id : Option String
  expanded_time_windows : List String
deriving DecidableEq, Repr

/-- Messages of the account-rules editor (`AccountRuleMessage` in
`account_rules/message.rs`). -/
inductive AccountRuleMessage
  | Select (id : String)
  | ToggleEnabled (id : String) (enabled : Bool)
  | ToggleDay (id : String) (day : Weekday)
  | SetTimeWindow (id : String) (start_str : Option String)
      (end_str : Option String)
  | SetTimeWindowExpanded (id : String) (expanded : Bool)
  | SetOutsideBehavior (id : String) (behavior : OutsideScheduleBehavior)
deriving DecidableEq, Repr

/-- Account-rule update handler (`update_account_rule` in
`account_rules/update.rs` lines 14–90).  The outcome of `rules.save()` is
an explicit argument; the Rust binds it to `_`. -/
def update_account_rule (state : AccountRulesState)
    (msg : AccountRuleMessage) (rules : NotificationRuleSet)
    (saveResult : SaveOutcome) : AccountRulesState × NotificationRuleSet :=
  match msg with
  | .Select id => ({ state with selected_account_id := some id }, rules)
  | .ToggleEnabled id enabled =>
    let ar := setFirst (fun r => r.id = id)
      (fun r => { r with enabled := enabled }) rules.account_rules
    let _ := saveResult
    (state, { rules with account_rules := ar })
  | .ToggleDay id day =>
    let ar := setFirst (fun r => r.id = id)
      (fun r =>
        if day ∈ r.active_days then
          { r with active_days := r.active_days.filter (fun d => ¬ d = day) }
        else { r with active_days := r.active_days ++ [day] })
      rules.account_rules
    let _ := saveResult
    (state, { rules with account_rules := ar })
  | .SetTimeWindow id start_str end_str =>
    let ar := setFirst (fun r => r.id = id)
      (fun r => { r with
          start_time := start_str.bind parseTimeHM
          end_time := end_str.bind parseTimeHM })
      rules.account_rules
    let _ := saveResult
    (state, { rules with account_rules := ar })
  | .SetTimeWindowExpanded id expanded =>
    if expanded then
      ({ state with expanded_time_windows :=
          if id ∈ state.expanded_time_windows then state.expanded_time_windows
          else state.expanded_time_windows ++ [id] }, rules)
    else
      ({ state with expanded_time_windows :=
          state.expanded_time_windows.filter (fun x => ¬ x = id) }, rules)
  | .SetOutsideBehavior id behavior =>
    let ar := setFirst (fun r => r.id = id)
      (fun r => { r with outside_behavior := behavior }) rules.account_rules
    let _ := saveResult
    (state, { rules with account_rules := ar })

/-- Messages of the organization-rules editor (`OrgMessage` in
`rule_engine/messages.rs`). -/
inductive OrgMessage
  | Toggle (id : String) (enabled : Bool)
  | Delete (id : String)
  | Duplicate (id : String)
deriving DecidableEq, Repr

/-- Org-rule update handler (`RuleEngineScreen::update_org` in
`rule_engine/screen.rs` lines 112–134, identical to `org_rules/update.rs`).
The fresh id drawn by `uuid::Uuid::new_v4()` and the outcome of
`rules.save()` are explicit arguments; the Rust binds the latter to `_`. -/
def update_org_rule (msg : OrgMessage) (rules : NotificationRuleSet)
    (freshId : String) (saveResult : SaveOutcome) : NotificationRuleSet :=
  match msg with
  | .Toggle id enabled =>
    let org := setFirst (fun r => r.id = id)
      (fun r => { r with enabled := enabled }) rules.org_rules
    let _ := saveResult
    { rules with org_rules := org }
  | .Delete id =>
    let _ := saveResult
    { rules with org_rules := rules.org_rules.filter (fun r => ¬ r.id = id) }
  | .Duplicate id =>
    match rules.org_rules.find? (fun r => r.id = id) with
    | some rule =>
      let new_rule := { rule with id := freshId }
      let _ := saveResult
      { rules with org_rules := rules.org_rules ++ [new_rule] }
    | none => rules

/-- Whole-set enable toggle (`RuleEngineMessage::ToggleEnabled` in
`rule_engine/screen.rs` lines 89–93); the save outcome is discarded. -/
def set_rules_enabled (rules : NotificationRuleSet) (enabled : Bool)
    (saveResult : SaveOutcome) : NotificationRuleSet :=
  let _ := saveResult
  { rules with enabled := enabled }

/-! ### Lemmas about the rule-resolution fold -/

theorem resolveBetter_imp_left (a b : RuleAction × Int)
    (h : a.1 = .Important) : (resolveBetter a b).1 = .Important := by
  unfold resolveBetter
  simp [h]

theorem resolveBetter_imp_right (a b : RuleAction × Int)
    (h : b.1 = .Important) : (resolveBetter a b).1 = .Important := by
  unfold resolveBetter
  by_cases ha : a.1 = RuleAction.Important
  · simp [ha]
  · simp [ha, h]

theorem foldl_resolveBetter_imp :
    ∀ (cs : List (RuleAction × Int)) (acc : RuleAction × Int),
      (acc.1 = .Important ∨ ∃ x ∈ cs, x.1 = .Important) →
      (cs.foldl resolveBetter acc).1 = .Important := by
  intro cs
  induction cs with
  | nil =>
    intro acc h
    rcases h with h | ⟨x, hx, _⟩
    · simpa using h
    · simp at hx
  | cons c cs ih =>
    intro acc h
    rw [List.foldl_cons]
    apply ih
    rcases h with h | ⟨x, hx, hximp⟩
    · exact Or.inl (resolveBetter_imp_left acc c h)
    · rcases List.mem_cons.mp hx with rfl | hxs
      · exact Or.inl (resolveBetter_imp_right acc x hximp)
      · exact Or.inr ⟨x, hxs, hximp⟩

/-- C1.  Important dominance: whenever some matching rule contributes
`Important` to the evaluation of a record, `evaluate` resolves to
`Important`, whatever every other contribution is — in particular a
matching rule of strictly higher numeric priority resolving to `Hide`
cannot override it. -/
theorem evaluate_important_dominance (r : NotificationView)
    (rs : NotificationRuleSet) (now : Clock) (p : Int)
    (h : (RuleAction.Important, p) ∈ contributions r rs now) :
    (evaluate r rs now).1 = .Important := by
  unfold evaluate
  cases hc : contributions r rs now with
  | nil => rw [hc] at h; simp at h
  | cons c cs =>
    rw [hc] at h
    apply foldl_resolveBetter_imp
    rcases List.mem_cons.mp h with rfl | hcs
    · exact Or.inl rfl
    · exact Or.inr ⟨_, hcs, rfl⟩

/-! ### Concrete example inputs shared by the witnesses -/

/-- Record constructor used by the concrete examples. -/
def mkRec (id acct repo : String) (st : SubjectType)
    (rsn : NotificationReason) (unread : Bool) (ts : Int) : NotificationView :=
  { id := id, account := acct, repo_full_name := repo, subject_type := st,
    reason := rsn, unread := unread, updated_at := ts, title := "t",
    url := none, latest_comment_url := none }

/-- Rule set with no rules at all (everything shows by default). -/
def emptyRules : NotificationRuleSet :=
  { enabled := true, account_rules := [], org_rules := [], type_rules := [] }

/-- Example evaluation instant: Saturday, 10:00. -/
def exClock : Clock := { weekday := .Sat, minuteOfDay := 600 }

/-- Example record: an unread mention for `alice` in `acme/app`. -/
def exRec : NotificationView := mkRec "imp" "alice" "acme/app" .Issue .Mention true 0

/-- Rule set pitting a priority-500 `Hide` org rule against a priority-10
`Important` type rule, both matching `exRec`. -/
def exRulesHideVsImp : NotificationRuleSet :=
  { emptyRules with
      org_rules := [{ id := "o", org := "acme", enabled := true,
                      action := .Hide, priority := 500 }]
      type_rules := [{ id := "t", notification_type := "Mentioned",
                       account := none, priority := 10,
                       action := .Important, enabled := true }] }

/-- C1 witness: with a matching `Important` contribution at priority 10 and
a matching `Hide` contribution at priority 500, evaluation yields
`Important`. -/
theorem evaluate_important_dominance_witness :
    (RuleAction.Important, (10 : Int)) ∈ contributions exRec exRulesHideVsImp exClock
    ∧ (RuleAction.Hide, (500 : Int)) ∈ contributions exRec exRulesHideVsImp exClock
    ∧ (evaluate exRec exRulesHideVsImp exClock).1 = .Important :=
  ⟨by decide, by decide,
    evaluate_important_dominance exRec exRulesHideVsImp exClock 10 (by decide)⟩

/-! ### Cross-account tracker update (C3) -/

/-- C3.  A tracker update for account `acct` replaces that account's
entries in full — afterwards the entries owned by `acct` are exactly the
`Important`-and-unread records of the current run (no merge with prior
entries) — while every stored entry owned by a different account is kept
unchanged.  The hypothesis records that the processed run belongs to the
current account, which holds on every pipeline run because records are
fetched per account. -/
theorem updateCross_replaces_account (cross processed : List ProcessedNotification)
    (acct : String) (h : ∀ p ∈ processed, p.notification.account = acct) :
    (updateCrossAccountPriority cross processed acct).filter
        (fun p => p.notification.account = acct)
      = processed.filter (fun p => p.action = .Important ∧ p.notification.unread)
    ∧ (updateCrossAccountPriority cross processed acct).filter
        (fun p => ¬ p.notification.account = acct)
      = cross.filter (fun p => ¬ p.notification.account = acct) := by
  unfold updateCrossAccountPriority
  constructor
  · rw [List.filter_append]
    have h1 : (cross.filter (fun p => ¬ p.notification.account = acct)).filter
        (fun p => p.notification.account = acct) = [] := by
      rw [List.filter_eq_nil_iff]
      intro p hp
      simp only [List.mem_filter, decide_eq_true_eq] at hp
      simpa using hp.2
    have h2 : (processed.filter
        (fun p => p.action = .Important ∧ p.notification.unread)).filter
        (fun p => p.notification.account = acct)
        = processed.filter (fun p => p.action = .Important ∧ p.notification.unread) := by
      rw [List.filter_eq_self]
      intro p hp
      simp only [List.mem_filter] at hp
      simpa using h p hp.1
    rw [h1, h2, List.nil_append]
  · rw [List.filter_append]
    have h1 : (cross.filter (fun p => ¬ p.notification.account = acct)).filter
        (fun p => ¬ p.notification.account = acct)
        = cross.filter (fun p => ¬ p.notification.account = acct) := by
      rw [List.filter_eq_self]
      intro p hp
      simp only [List.mem_filter] at hp
      exact hp.2
    have h2 : (processed.filter
        (fun p => p.action = .Important ∧ p.notification.unread)).filter
        (fun p => ¬ p.notification.account = acct) = [] := by
      rw [List.filter_eq_nil_iff]
      intro p hp
      simp only [List.mem_filter] at hp
      simp [h p hp.1]
    rw [h1, h2, List.append_nil]

/-- Example tracker entry owned by the non-current account `bob`. -/
def exBobEntry : ProcessedNotification :=
  { notification := mkRec "b1" "bob" "zeta/lib" .Issue .Comment true 5
    action := .Important, priority := 3 }

/-- Example tracker content for accounts other than the current one. -/
def exCrossBob : List ProcessedNotification := [exBobEntry]

/-- Example processed run of the current account `alice`: one Important
unread record and one plain one. -/
def exProcessedAlice : List ProcessedNotification :=
  [{ notification := exRec, action := .Important, priority := 10 },
   { notification := mkRec "sh" "alice" "acme/app" .Issue .Comment true 1
     action := .Show, priority := 0 }]

/-- C3 witness: updating `alice`'s entries keeps `bob`'s entry untouched
and stores exactly `alice`'s Important-and-unread record. -/
theorem updateCross_replaces_account_witness :
    (∀ p ∈ exProcessedAlice, p.notification.account = "alice")
    ∧ (updateCrossAccountPriority exCrossBob exProcessedAlice "alice").filter
        (fun p => p.notification.account = "alice")
      = exProcessedAlice.filter (fun p => p.action = .Important ∧ p.notification.unread)
    ∧ (updateCrossAccountPriority exCrossBob exProcessedAlice "alice").filter
        (fun p => ¬ p.notification.account = "alice")
      = exCrossBob.filter (fun p => ¬ p.notification.account = "alice") :=
  ⟨by decide,
   (updateCross_replaces_account exCrossBob exProcessedAlice "alice" (by decide)).1,
   (updateCross_replaces_account exCrossBob exProcessedAlice "alice" (by decide)).2⟩

/-! ### Tracker update source: post-filter, not pre-filter (C2) -/

/-- Second example record: an unread comment for `alice` in `zeta/lib`,
matched by no rule. -/
def exOther : NotificationView := mkRec "oth" "alice" "zeta/lib" .Issue .Comment true 0

/-- Processing state holding both example records, with `exRec` resolving
to `Important` under `exRulesHideVsImp` and an empty tracker. -/
def exStC2 : ProcessingState :=
  { all_notifications := [exRec, exOther], filtered_notifications := [],
    processed_notifications := [], groups := [], rules := exRulesHideVsImp,
    cross_account_priority := [], type_counts := [], repo_counts := [] }

/-- Filters selecting the repository of `exOther` only (a non-zero-count
selection, so the defensive auto-reset keeps it). -/
def exFiltersRepo : FilterSettings :=
  { show_all := false, selected_type := none, selected_repo := some "zeta/lib" }

/-- C2 counterexample: `exRec` is `Important` and unread under the
pre-filter evaluation and is part of the fetched set, yet after the
pipeline run with a repo filter that excludes it the tracker is empty —
the tracker is fed from the subset surviving the display filters, not from
the full fetched record set. -/
theorem rebuild_tracker_prefilter_cex :
    (evaluate exRec exRulesHideVsImp exClock).1 = .Important
    ∧ exRec.unread = true
    ∧ exRec ∈ exStC2.all_notifications
    ∧ (exStC2.rebuildGroups exFiltersRepo exClock 0 "alice").1.cross_account_priority
        = [] := by decide

/-- C2 as amended: on every pipeline run (both the `ProcessingState` and
the screen-level variant) the tracker is rebuilt from the *post-filter*
processed set — prior entries of other accounts, followed by the
`Important`-and-unread records of the set that survived the
unread-only/type/repo display filters. -/
theorem rebuild_tracker_postfilter :
    (∀ (st : ProcessingState) (filters : FilterSettings) (now : Clock)
        (nowTs : Int) (acct : String),
      ((st.rebuildGroups filters now nowTs acct).1).cross_account_priority
        = st.cross_account_priority.filter (fun p => ¬ p.notification.account = acct)
          ++ ((st.rebuildGroups filters now nowTs acct).1).processed_notifications.filter
               (fun p => p.action = .Important ∧ p.notification.unread))
    ∧ (∀ (s : NotificationsScreen) (now : Clock) (nowTs : Int),
      (s.rebuildGroups now nowTs).cross_account_priority
        = s.cross_account_priority.filter
            (fun p => ¬ p.notification.account = s.user_login)
          ++ (s.rebuildGroups now nowTs).processed_notifications.filter
               (fun p => p.action = .Important ∧ p.notification.unread)) :=
  ⟨fun _ _ _ _ _ => rfl, fun _ _ _ => rfl⟩

/-! ### Fetch-error atomicity (C9) -/

/-- C9.  A refresh completing with an error leaves the notification state
untouched: the resulting screen equals the prior one with only the loading
flag cleared and the error message set (so records, filtered/processed
lists, groups, facet counts, the seen map, the tracker, the filters and
the selection state all keep their prior values), and no desktop alert is
emitted. -/
theorem fetch_error_atomicity (s : NotificationsScreen) (env : Env)
    (e : String) :
    s.update (.RefreshComplete (.error e)) env
      = ({ s with is_loading := false, error_message := some e }, []) := rfl

/-! ### Facet-filter exclusivity (C10) -/

/-- Predicate singling out the two messages whose handlers write the
type/repo facet filters. -/
def setsFacetFilter : NotificationMessage → Bool
  | .SelectType _ => true
  | .SelectRepo _ => true
  | _ => false

theorem update_refresh_ok_filters (s : NotificationsScreen) (env : Env)
    (recs : List NotificationView) :
    ((s.update (.RefreshComplete (.ok recs)) env).1).filters = s.filters := by
  by_cases hh : env.is_hidden <;>
    simp [NotificationsScreen.update, NotificationsScreen.rebuildGroups, hh]

/-- C10.  At most one facet filter is ever active: the exclusivity
invariant `¬(selected_type set ∧ selected_repo set)` is preserved by every
message, because `SelectType` sets the type filter while clearing the repo
filter, `SelectRepo` does the converse, and no other handler writes either
field. -/
theorem facet_filter_exclusivity (s : NotificationsScreen)
    (msg : NotificationMessage) (env : Env)
    (hinv : ¬(s.filters.selected_type.isSome ∧ s.filters.selected_repo.isSome)) :
    ¬(((s.update msg env).1).filters.selected_type.isSome
        ∧ ((s.update msg env).1).filters.selected_repo.isSome)
    ∧ (setsFacetFilter msg = false →
        ((s.update msg env).1).filters.selected_type = s.filters.selected_type
        ∧ ((s.update msg env).1).filters.selected_repo = s.filters.selected_repo) := by
  cases msg with
  | RefreshComplete result =>
    cases result with
    | ok recs =>
      rw [update_refresh_ok_filters s env recs]
      exact ⟨hinv, fun _ => ⟨rfl, rfl⟩⟩
    | error e => exact ⟨hinv, fun _ => ⟨rfl, rfl⟩⟩
  | SelectType t =>
    refine ⟨by simp [NotificationsScreen.update, NotificationsScreen.rebuildGroups],
      fun h => by simp [setsFacetFilter] at h⟩
  | SelectRepo repo =>
    refine ⟨by simp [NotificationsScreen.update, NotificationsScreen.rebuildGroups],
      fun h => by simp [setsFacetFilter] at h⟩
  | MarkAsReadComplete id ok =>
    by_cases h : ok ∧ s.all_notifications.any (fun n => n.id = id) <;>
      simp only [NotificationsScreen.update, h, if_true, if_false] <;>
      exact ⟨hinv, fun _ => by constructor <;> trivial⟩
  | MarkAsDoneComplete id ok =>
    cases ok <;> exact ⟨hinv, fun _ => ⟨rfl, rfl⟩⟩
  | MuteThreadComplete id ok =>
    cases ok <;> exact ⟨hinv, fun _ => ⟨rfl, rfl⟩⟩
  | SelectComplete id ok =>
    by_cases h : s.selected_notification_id = some id <;>
      simp only [NotificationsScreen.update, h, if_true, if_false] <;>
      exact ⟨hinv, fun _ => by constructor <;> trivial⟩
  | SelectNotification id =>
    by_cases h : s.all_notifications.any (fun n => n.id = id) <;>
      simp only [NotificationsScreen.update, h, if_true, if_false] <;>
      exact ⟨hinv, fun _ => by constructor <;> trivial⟩
  | ToggleGroup index =>
    cases hg : s.groups.get? index <;>
      simp only [NotificationsScreen.update, hg] <;>
      exact ⟨hinv, fun _ => by constructor <;> trivial⟩
  | ToggleBulkMode =>
    by_cases h : s.bulk_mode <;>
      simp only [NotificationsScreen.update, h] <;>
      exact ⟨hinv, fun _ => by constructor <;> trivial⟩
  | ToggleSelect id =>
    by_cases h : id ∈ s.selected_ids <;>
      simp only [NotificationsScreen.update, h, if_true, if_false] <;>
      exact ⟨hinv, fun _ => by constructor <;> trivial⟩
  | TogglePowerMode => exact ⟨hinv, fun _ => ⟨rfl, rfl⟩⟩
  | Refresh => exact ⟨hinv, fun _ => ⟨rfl, rfl⟩⟩
  | Open id => exact ⟨hinv, fun _ => ⟨rfl, rfl⟩⟩
  | MarkAsRead id => exact ⟨hinv, fun _ => ⟨rfl, rfl⟩⟩
  | MarkAllAsRead => exact ⟨hinv, fun _ => ⟨rfl, rfl⟩⟩
  | MarkAllAsReadComplete ok => exact ⟨hinv, fun _ => ⟨rfl, rfl⟩⟩
  | ToggleShowAll => exact ⟨hinv, fun _ => ⟨rfl, rfl⟩⟩
  | Logout => exact ⟨hinv, fun _ => ⟨rfl, rfl⟩⟩
  | MarkAsDone id => exact ⟨hinv, fun _ => ⟨rfl, rfl⟩⟩
  | MuteThread id => exact ⟨hinv, fun _ => ⟨rfl, rfl⟩⟩
  | OpenSettings => exact ⟨hinv, fun _ => ⟨rfl, rfl⟩⟩
  | OpenRuleEngine => exact ⟨hinv, fun _ => ⟨rfl, rfl⟩⟩
  | SwitchAccount account => exact ⟨hinv, fun _ => ⟨rfl, rfl⟩⟩
  | OnScroll => exact ⟨hinv, fun _ => ⟨rfl, rfl⟩⟩
  | OpenInBrowser => exact ⟨hinv, fun _ => ⟨rfl, rfl⟩⟩
  | SelectAll => exact ⟨hinv, fun _ => ⟨rfl, rfl⟩⟩
  | ClearSelection => exact ⟨hinv, fun _ => ⟨rfl, rfl⟩⟩
  | BulkMarkAsRead => exact ⟨hinv, fun _ => ⟨rfl, rfl⟩⟩
  | BulkMarkAsDone => exact ⟨hinv, fun _ => ⟨rfl, rfl⟩⟩

/-- Example screen in its initial shape (`NotificationsScreen::new` field
values, with the example rule set preloaded). -/
def exScreen : NotificationsScreen :=
  { user_login := "alice", all_notifications := [],
    filtered_notifications := [], processed_notifications := [],
    groups := [], filters := FilterSettings.default, is_loading := true,
    error_message := none, type_counts := [], repo_counts := [],
    seen_notification_timestamps := [], rules := emptyRules,
    cross_account_priority := [], selected_notification_id := none,
    is_loading_details := false, selected_ids := [], bulk_mode := false }

/-- Example environment: window hidden in the tray, no mock injection, and
a platform notifier that fails every delivery. -/
def exEnvFail : Env :=
  { is_hidden := true, mocks := [], now := exClock, nowTs := 0,
    deliverOk := fun _ => false }

/-- C10 witness: from a state satisfying the exclusivity invariant,
selecting a type keeps the invariant, and a non-filter message leaves both
facet selections unchanged. -/
theorem facet_filter_exclusivity_witness :
    (¬(exScreen.filters.selected_type.isSome ∧ exScreen.filters.selected_repo.isSome))
    ∧ (¬(((exScreen.update (.SelectType (some .Issue)) exEnvFail).1).filters.selected_type.isSome
          ∧ ((exScreen.update (.SelectType (some .Issue)) exEnvFail).1).filters.selected_repo.isSome))
    ∧ ((exScreen.update .Refresh exEnvFail).1).filters.selected_type
        = exScreen.filters.selected_type :=
  ⟨by decide,
   (facet_filter_exclusivity exScreen (.SelectType (some .Issue)) exEnvFail (by decide)).1,
   ((facet_filter_exclusivity exScreen .Refresh exEnvFail (by decide)).2 (by decide)).1⟩

/-! ### Complementary facet counts (C7) -/

theorem keysOf_step_mem {α : Type} [DecidableEq α] :
    ∀ (l : List α) (acc : List α) (x : α),
      x ∈ l.foldl (fun acc y => if y ∈ acc then acc else acc ++ [y]) acc ↔
        x ∈ acc ∨ x ∈ l := by
  intro l
  induction l with
  | nil => intro acc x; simp
  | cons y ys ih =>
    intro acc x
    rw [List.foldl_cons, ih]
    by_cases hy : y ∈ acc
    · rw [if_pos hy]
      constructor
      · rintro (h | h)
        · exact Or.inl h
        · exact Or.inr (List.mem_cons_of_mem y h)
      · rintro (h | h)
        · exact Or.inl h
        · rcases List.mem_cons.mp h with rfl | h2
          · exact Or.inl hy
          · exact Or.inr h2
    · rw [if_neg hy]
      constructor
      · rintro (h | h)
        · rcases List.mem_append.mp h with h1 | h1
          · exact Or.inl h1
          · rcases List.mem_cons.mp h1 with rfl | h2
            · exact Or.inr (List.mem_cons_self _ _)
            · simp at h2
        · exact Or.inr (List.mem_cons_of_mem y h)
      · rintro (h | h)
        · exact Or.inl (List.mem_append.mpr (Or.inl h))
        · rcases List.mem_cons.mp h with rfl | h2
          · exact Or.inl (List.mem_append.mpr (Or.inr (List.mem_cons_self _ _)))
          · exact Or.inr h2

theorem keysOf_mem {α : Type} [DecidableEq α] (l : List α) (x : α) :
    x ∈ keysOf l ↔ x ∈ l := by
  unfold keysOf
  rw [keysOf_step_mem]
  simp

theorem count_by_type_mem (records : List NotificationView)
    (t : SubjectType) (c : Nat) (h : (t, c) ∈ count_by_type records) :
    c = records.countP (fun n => n.subject_type = t) := by
  unfold count_by_type at h
  rcases List.mem_map.mp h with ⟨t0, _, heq⟩
  cases heq
  rfl

theorem count_by_type_keys (records : List NotificationView)
    (t : SubjectType) :
    t ∈ (count_by_type records).map Prod.fst ↔
      ∃ n ∈ records, n.subject_type = t := by
  unfold count_by_type
  rw [List.map_map]
  constructor
  · intro h
    rcases List.mem_map.mp h with ⟨t0, ht0, heq⟩
    simp only [Function.comp] at heq
    cases heq
    rcases List.mem_map.mp ((keysOf_mem _ _).mp ht0) with ⟨n, hn, hnt⟩
    exact ⟨n, hn, hnt⟩
  · rintro ⟨n, hn, rfl⟩
    exact List.mem_map.mpr ⟨n.subject_type,
      (keysOf_mem _ _).mpr (List.mem_map.mpr ⟨n, hn, rfl⟩), rfl⟩

theorem count_by_repo_mem (records : List NotificationView)
    (repo : String) (c : Nat) (h : (repo, c) ∈ count_by_repo records) :
    c = records.countP (fun n => n.repo_full_name = repo) := by
  unfold count_by_repo at h
  rcases List.mem_map.mp h with ⟨r0, _, heq⟩
  cases heq
  rfl

theorem count_by_repo_keys (records : List NotificationView)
    (repo : String) :
    repo ∈ (count_by_repo records).map Prod.fst ↔
      ∃ n ∈ records, n.repo_full_name = repo := by
  unfold count_by_repo
  rw [List.map_map]
  constructor
  · intro h
    rcases List.mem_map.mp h with ⟨r0, hr0, heq⟩
    simp only [Function.comp] at heq
    cases heq
    rcases List.mem_map.mp ((keysOf_mem _ _).mp hr0) with ⟨n, hn, hnr⟩
    exact ⟨n, hn, hnr⟩
  · rintro ⟨n, hn, rfl⟩
    exact List.mem_map.mpr ⟨n.repo_full_name,
      (keysOf_mem _ _).mpr (List.mem_map.mpr ⟨n, hn, rfl⟩), rfl⟩

/-- Subset of the fetched records passing the repo filter alone (the
selected type is ignored). -/
def repoFilteredOnly (records : List NotificationView)
    (filters : FilterSettings) : List NotificationView :=
  records.filter (fun n =>
    match filters.selected_repo with
    | some repo => n.repo_full_name = repo
    | none => true)

/-- Subset of the fetched records passing the type filter alone (the
selected repo is ignored). -/
def typeFilteredOnly (records : List NotificationView)
    (filters : FilterSettings) : List NotificationView :=
  records.filter (fun n =>
    match filters.selected_type with
    | some t => n.subject_type = t
    | none => true)

theorem repoFilteredOnly_eq (records : List NotificationView)
    (filters : FilterSettings) :
    repoFilteredOnly records filters =
      match filters.selected_repo with
      | some repo => records.filter (fun n => n.repo_full_name = repo)
      | none => records := by
  unfold repoFilteredOnly
  cases filters.selected_repo with
  | none => simp
  | some repo => rfl

theorem typeFilteredOnly_eq (records : List NotificationView)
    (filters : FilterSettings) :
    typeFilteredOnly records filters =
      match filters.selected_type with
      | some t => records.filter (fun n => n.subject_type = t)
      | none => records := by
  unfold typeFilteredOnly
  cases filters.selected_type with
  | none => simp
  | some t => rfl

/-- C7.  On every pipeline run the facet counts are complementary: every
type count produced equals the number of records (among all fetched ones)
that pass the repo filter alone and carry that type — the selected type is
ignored — and symmetrically every repo count equals the number of records
passing the type filter alone in that repository; a type or repo appears
among the counts exactly when such a record exists. -/
theorem facet_counts_complementary (st : ProcessingState)
    (filters : FilterSettings) (now : Clock) (nowTs : Int) (acct : String) :
    (∀ t c, (t, c) ∈ ((st.rebuildGroups filters now nowTs acct).1).type_counts →
        c = (repoFilteredOnly st.all_notifications filters).countP
              (fun n => n.subject_type = t))
    ∧ (∀ t, t ∈ (((st.rebuildGroups filters now nowTs acct).1).type_counts).map Prod.fst ↔
        ∃ n ∈ repoFilteredOnly st.all_notifications filters, n.subject_type = t)
    ∧ (∀ repo c, (repo, c) ∈ ((st.rebuildGroups filters now nowTs acct).1).repo_counts →
        c = (typeFilteredOnly st.all_notifications filters).countP
              (fun n => n.repo_full_name = repo))
    ∧ (∀ repo, repo ∈ (((st.rebuildGroups filters now nowTs acct).1).repo_counts).map Prod.fst ↔
        ∃ n ∈ typeFilteredOnly st.all_notifications filters, n.repo_full_name = repo) := by
  obtain ⟨fsa, fst, fsr⟩ := filters
  have htc : ((st.rebuildGroups ⟨fsa, fst, fsr⟩ now nowTs acct).1).type_counts
      = count_by_type (repoFilteredOnly st.all_notifications ⟨fsa, fst, fsr⟩) := by
    rw [repoFilteredOnly_eq]
    cases fsr <;> rfl
  have hrc : ((st.rebuildGroups ⟨fsa, fst, fsr⟩ now nowTs acct).1).repo_counts
      = count_by_repo (typeFilteredOnly st.all_notifications ⟨fsa, fst, fsr⟩) := by
    rw [typeFilteredOnly_eq]
    cases fst <;> rfl
  refine ⟨?_, ?_, ?_, ?_⟩
  · intro t c hmem
    rw [htc] at hmem
    exact count_by_type_mem _ t c hmem
  · intro t
    rw [htc]
    exact count_by_type_keys _ t
  · intro repo c hmem
    rw [hrc] at hmem
    exact count_by_repo_mem _ repo c hmem
  · intro repo
    rw [hrc]
    exact count_by_repo_keys _ repo

/-- C7 witness: with a repo filter selecting `zeta/lib`, the type count
reported for `Issue` is computed over the repo-filtered subset (here the
single record `exOther`), ignoring any selected type. -/
theorem facet_counts_complementary_witness :
    ((SubjectType.Issue, 1) ∈ ((exStC2.rebuildGroups exFiltersRepo exClock 0 "alice").1).type_counts)
    ∧ (1 = (repoFilteredOnly exStC2.all_notifications exFiltersRepo).countP
          (fun n => n.subject_type = SubjectType.Issue)) :=
  ⟨by decide,
   (facet_counts_complementary exStC2 exFiltersRepo exClock 0 "alice").1
     SubjectType.Issue 1 (by decide)⟩

/-! ### Cross-account merge handed to grouping (C4) -/

/-- Single step of the cross-account merge: append the entry unless a
record with its id is already present. -/
def mergeStep (combined : List ProcessedNotification)
    (p : ProcessedNotification) : List ProcessedNotification :=
  if combined.any (fun q => q.notification.id = p.notification.id)
  then combined else combined ++ [p]

theorem displayedSet_false_eq_foldl (processed cross : List ProcessedNotification)
    (acct : String) :
    displayedSet processed cross false acct
      = (cross.filter (fun p =>
          ¬ p.notification.account = acct ∧ p.notification.unread)).foldl
          mergeStep processed := rfl

theorem foldl_mergeStep_take :
    ∀ (others : List ProcessedNotification) (acc : List ProcessedNotification),
      ((others.foldl mergeStep acc).take acc.length) = acc := by
  intro others
  induction others with
  | nil => intro acc; exact List.take_length acc
  | cons p ps ih =>
    intro acc
    rw [List.foldl_cons]
    unfold mergeStep
    by_cases h : acc.any (fun q => q.notification.id = p.notification.id)
    · rw [if_pos h]
      exact ih acc
    · rw [if_neg h]
      have h1 := ih (acc ++ [p])
      have hmin : min acc.length (acc ++ [p]).length = acc.length := by
        simp [List.length_append]
      calc (ps.foldl mergeStep (acc ++ [p])).take acc.length
          = (ps.foldl mergeStep (acc ++ [p])).take (min acc.length (acc ++ [p]).length) := by
            rw [hmin]
        _ = ((ps.foldl mergeStep (acc ++ [p])).take (acc ++ [p]).length).take acc.length := by
            rw [List.take_take]
        _ = (acc ++ [p]).take acc.length := by rw [h1]
        _ = acc := List.take_left acc [p]

theorem foldl_mergeStep_sound :
    ∀ (others acc : List ProcessedNotification) (x : ProcessedNotification),
      x ∈ others.foldl mergeStep acc → x ∈ acc ∨ x ∈ others := by
  intro others
  induction others with
  | nil => intro acc x h; exact Or.inl (by simpa using h)
  | cons p ps ih =>
    intro acc x h
    rw [List.foldl_cons] at h
    rcases ih (mergeStep acc p) x h with h1 | h1
    · unfold mergeStep at h1
      by_cases hc : acc.any (fun q => q.notification.id = p.notification.id)
      · rw [if_pos hc] at h1
        exact Or.inl h1
      · rw [if_neg hc] at h1
        rcases List.mem_append.mp h1 with h2 | h2
        · exact Or.inl h2
        · rcases List.mem_cons.mp h2 with rfl | h3
          · exact Or.inr (List.mem_cons_self _ _)
          · simp at h3
    · exact Or.inr (List.mem_cons_of_mem p h1)

theorem foldl_mergeStep_mono :
    ∀ (others acc : List ProcessedNotification) (x : ProcessedNotification),
      x ∈ acc → x ∈ others.foldl mergeStep acc := by
  intro others
  induction others with
  | nil => intro acc x h; simpa using h
  | cons p ps ih =>
    intro acc x h
    rw [List.foldl_cons]
    apply ih
    unfold mergeStep
    by_cases hc : acc.any (fun q => q.notification.id = p.notification.id)
    · rw [if_pos hc]; exact h
    · rw [if_neg hc]; exact List.mem_append.mpr (Or.inl h)

theorem foldl_mergeStep_id_covered :
    ∀ (others acc : List ProcessedNotification) (p : ProcessedNotification),
      p ∈ others →
      ∃ q ∈ others.foldl mergeStep acc,
        q.notification.id = p.notification.id := by
  intro others
  induction others with
  | nil => intro acc p h; simp at h
  | cons y ys ih =>
    intro acc p h
    rw [List.foldl_cons]
    rcases List.mem_cons.mp h with rfl | h1
    · unfold mergeStep
      by_cases hc : acc.any (fun q => q.notification.id = p.notification.id)
      · rw [if_pos hc]
        rcases List.any_eq_true.mp hc with ⟨q, hq, hqid⟩
        exact ⟨q, foldl_mergeStep_mono ys acc q hq, of_decide_eq_true hqid⟩
      · rw [if_neg hc]
        exact ⟨p, foldl_mergeStep_mono ys (acc ++ [p]) p
          (List.mem_append.mpr (Or.inr (List.mem_cons_self _ _))), rfl⟩
    · exact ih (mergeStep acc y) p h1

/-- C4.  Characterization of the set handed to grouping: in "show all"
mode it is exactly the processed set, with no cross-account additions;
otherwise the processed set comes first unchanged, every element is either
a processed record or an unread tracker entry of another account, each
such tracker entry is represented by id, and the pipeline builds its
groups from exactly this set (modulo per-title expansion restore). -/
theorem displayed_set_merge :
    (∀ (processed cross : List ProcessedNotification) (acct : String),
      displayedSet processed cross true acct = processed)
    ∧ (∀ (processed cross : List ProcessedNotification) (acct : String),
      (displayedSet processed cross false acct).take processed.length = processed
      ∧ (∀ p ∈ displayedSet processed cross false acct,
          p ∈ processed
          ∨ (p ∈ cross ∧ ¬ p.notification.account = acct ∧ p.notification.unread = true))
      ∧ (∀ p ∈ cross, ¬ p.notification.account = acct →
          p.notification.unread = true →
          ∃ q ∈ displayedSet processed cross false acct,
            q.notification.id = p.notification.id))
    ∧ (∀ (st : ProcessingState) (filters : FilterSettings) (now : Clock)
        (nowTs : Int) (acct : String),
      ((st.rebuildGroups filters now nowTs acct).1).groups
        = (group_processed_notifications nowTs
            (displayedSet ((st.rebuildGroups filters now nowTs acct).1).processed_notifications
              ((st.rebuildGroups filters now nowTs acct).1).cross_account_priority
              ((st.rebuildGroups filters now nowTs acct).2).show_all acct)
            (¬ ((st.rebuildGroups filters now nowTs acct).2).show_all)).map
            (fun g =>
              match (st.groups.map (fun g0 => (g0.title, g0.is_expanded))).find?
                  (fun te => te.1 = g.title) with
              | some te => { g with is_expanded := te.2 }
              | none => g)) := by
  refine ⟨fun _ _ _ => rfl, ?_, fun _ _ _ _ _ => rfl⟩
  intro processed cross acct
  rw [displayedSet_false_eq_foldl]
  refine ⟨foldl_mergeStep_take _ processed, ?_, ?_⟩
  · intro p hp
    rcases foldl_mergeStep_sound _ processed p hp with h | h
    · exact Or.inl h
    · rcases List.mem_filter.mp h with ⟨hmem, hcond⟩
      rcases of_decide_eq_true hcond with ⟨hacct, hunread⟩
      exact Or.inr ⟨hmem, hacct, hunread⟩
  · intro p hp hacct hunread
    apply foldl_mergeStep_id_covered
    exact List.mem_filter.mpr ⟨hp, decide_eq_true ⟨hacct, hunread⟩⟩

/-- C4 witness: with "show all" off, `bob`'s unread Important tracker
entry is appended after `alice`'s processed records, and the processed set
is kept in place. -/
theorem displayed_set_merge_witness :
    displayedSet exProcessedAlice exCrossBob true "alice" = exProcessedAlice
    ∧ (displayedSet exProcessedAlice exCrossBob false "alice").take
        exProcessedAlice.length = exProcessedAlice
    ∧ exBobEntry.notification.account = "bob"
    ∧ (∃ q ∈ displayedSet exProcessedAlice exCrossBob false "alice",
        q.notification.id = exBobEntry.notification.id) :=
  ⟨(displayed_set_merge.1 exProcessedAlice exCrossBob "alice"),
   (displayed_set_merge.2.1 exProcessedAlice exCrossBob "alice").1,
   by decide,
   (displayed_set_merge.2.1 exProcessedAlice exCrossBob "alice").2.2
     exBobEntry (by decide) (by decide) (by decide)⟩

/-! ### Seen-map lemmas -/

theorem lookup_map_replace (id : String) (ts : Int) :
    ∀ m : SeenMap, m.any (fun kv => kv.1 = id) = true →
      seenLookup (m.map (fun kv => if kv.1 = id then (id, ts) else kv)) id
        = some ts := by
  intro m
  induction m with
  | nil => intro h; simp at h
  | cons kv m ih =>
    intro h
    by_cases hk : kv.1 = id
    · simp [seenLookup, hk]
    · have hany : m.any (fun kv => kv.1 = id) = true := by
        simp only [List.any_cons, Bool.or_eq_true, decide_eq_true_eq] at h
        rcases h with h | h
        · exact absurd h hk
        · exact h
      have := ih hany
      simp only [List.map_cons, if_neg hk]
      simp only [seenLookup] at this ⊢
      rw [List.find?_cons_of_neg]
      · exact this
      · simp [hk]

theorem lookup_append_fresh (id : String) (ts : Int) :
    ∀ m : SeenMap, m.any (fun kv => kv.1 = id) = false →
      seenLookup (m ++ [(id, ts)]) id = some ts := by
  intro m
  induction m with
  | nil => simp [seenLookup]
  | cons kv m ih =>
    intro h
    simp only [List.any_cons, Bool.or_eq_false_iff, decide_eq_false_iff_not] at h
    simp only [List.cons_append, seenLookup]
    rw [List.find?_cons_of_neg]
    · exact ih h.2
    · simp [h.1]

theorem seenLookup_insert_self (m : SeenMap) (id : String) (ts : Int) :
    seenLookup (seenInsert m id ts) id = some ts := by
  unfold seenInsert
  by_cases h : m.any (fun kv => kv.1 = id)
  · rw [if_pos h]
    exact lookup_map_replace id ts m h
  · rw [if_neg h]
    exact lookup_append_fresh id ts m (Bool.eq_false_iff.mpr h)

theorem seenLookup_isSome_iff (m : SeenMap) (id : String) :
    (seenLookup m id).isSome = true ↔ ∃ kv ∈ m, kv.1 = id := by
  unfold seenLookup
  rw [Option.isSome_map', List.find?_isSome]
  simp

theorem seenLookup_insert_isSome_mono (m : SeenMap) (id : String) (ts : Int)
    (id' : String) (h : (seenLookup m id').isSome = true) :
    (seenLookup (seenInsert m id ts) id').isSome = true := by
  rw [seenLookup_isSome_iff] at h ⊢
  rcases h with ⟨kv, hkv, hkey⟩
  unfold seenInsert
  by_cases hany : m.any (fun kv => kv.1 = id)
  · rw [if_pos hany]
    refine ⟨if kv.1 = id then (id, ts) else kv,
      List.mem_map.mpr ⟨kv, hkv, rfl⟩, ?_⟩
    by_cases hk : kv.1 = id
    · rw [if_pos hk]
      exact hk.symm.trans hkey
    · rw [if_neg hk]
      exact hkey
  · rw [if_neg hany]
    exact ⟨kv, List.mem_append.mpr (Or.inl hkv), hkey⟩

theorem seenLookup_insertAll_isSome_mono (recs : List NotificationView) :
    ∀ (m : SeenMap) (id : String), (seenLookup m id).isSome = true →
      (seenLookup (seenInsertAll m recs) id).isSome = true := by
  induction recs with
  | nil => intro m id h; exact h
  | cons n ns ih =>
    intro m id h
    exact ih _ id (seenLookup_insert_isSome_mono m n.id n.updated_at id h)

theorem seenLookup_insertAll_self (recs : List NotificationView) :
    ∀ (m : SeenMap), ∀ n ∈ recs,
      (seenLookup (seenInsertAll m recs) n.id).isSome = true := by
  induction recs with
  | nil => intro m n h; simp at h
  | cons y ys ih =>
    intro m n h
    rcases List.mem_cons.mp h with rfl | h1
    · unfold seenInsertAll
      rw [List.foldl_cons]
      exact seenLookup_insertAll_isSome_mono ys _ n.id
        (by rw [seenLookup_insert_self]; rfl)
    · exact ih _ n h1

theorem seenLookup_filter_key (q : String → Bool) (id : String)
    (hq : q id = true) :
    ∀ m : SeenMap,
      seenLookup (m.filter (fun kv => q kv.1)) id = seenLookup m id := by
  intro m
  induction m with
  | nil => rfl
  | cons kv m ih =>
    by_cases hk : kv.1 = id
    · have : q kv.1 = true := by rw [hk]; exact hq
      simp only [List.filter_cons, this, if_true, seenLookup]
      rw [List.find?_cons_of_pos, List.find?_cons_of_pos]
      · simp [hk]
      · simp [hk]
    · rcases hqk : q kv.1 with _ | _
      · simp only [List.filter_cons, hqk, Bool.false_eq_true, if_false]
        rw [ih]
        unfold seenLookup
        rw [List.find?_cons_of_neg]
        simp [hk]
      · simp only [List.filter_cons, hqk, if_true]
        unfold seenLookup at ih ⊢
        rw [List.find?_cons_of_neg, List.find?_cons_of_neg]
        · exact ih
        · simp [hk]
        · simp [hk]

theorem update_refresh_ok_seen (s : NotificationsScreen) (env : Env)
    (recs : List NotificationView) :
    ((s.update (.RefreshComplete (.ok recs)) env).1).seen_notification_timestamps
      = (if (seenInsertAll s.seen_notification_timestamps (recs ++ env.mocks)).length > 500
         then (seenInsertAll s.seen_notification_timestamps (recs ++ env.mocks)).filter
             (fun kv => (recs ++ env.mocks).any (fun n => n.id = kv.1))
         else seenInsertAll s.seen_notification_timestamps (recs ++ env.mocks)) := by
  by_cases hh : env.is_hidden <;>
    simp [NotificationsScreen.update, NotificationsScreen.rebuildGroups, hh]

/-! ### Delivery failure and seen-state (C5) -/

/-- C5 counterexample: on a refresh that emits one desktop alert while
every delivery fails (`exEnvFail.deliverOk` is constantly `false`), the
fetched record is nevertheless recorded in the seen-timestamp map — a
delivery failure does not keep the record eligible for the next batch. -/
theorem seen_commit_on_failed_delivery_cex :
    ((exScreen.update (.RefreshComplete (.ok [exRec])) exEnvFail).2).length = 1
    ∧ exEnvFail.deliverOk 0 = false
    ∧ seenLookup
        ((exScreen.update (.RefreshComplete (.ok [exRec])) exEnvFail).1).seen_notification_timestamps
        exRec.id = some 0 := by
  refine ⟨?_, ?_, ?_⟩ <;> decide

/-- C5 as amended: committing the seen state is independent of delivery —
the whole update step (state and emitted alerts) is identical under any
two delivery-outcome assignments, and after an `Ok` refresh every fetched
record's id is present in the seen map, whether or not its alert was
delivered.  A delivery failure therefore does not prevent records from
being marked seen. -/
theorem seen_commit_ignores_delivery (s : NotificationsScreen)
    (recs : List NotificationView) (env : Env) (d1 d2 : Nat → Bool) :
    (s.update (.RefreshComplete (.ok recs)) { env with deliverOk := d1 })
      = (s.update (.RefreshComplete (.ok recs)) { env with deliverOk := d2 })
    ∧ (∀ n ∈ recs ++ env.mocks,
        (seenLookup
          ((s.update (.RefreshComplete (.ok recs)) env).1).seen_notification_timestamps
          n.id).isSome = true) := by
  constructor
  · rfl
  · intro n hn
    rw [update_refresh_ok_seen]
    by_cases hlen :
        (seenInsertAll s.seen_notification_timestamps (recs ++ env.mocks)).length > 500
    · rw [if_pos hlen]
      have hq : ((recs ++ env.mocks).any (fun n0 => n0.id = n.id)) = true :=
        List.any_eq_true.mpr ⟨n, hn, decide_eq_true rfl⟩
      rw [seenLookup_filter_key (fun key => (recs ++ env.mocks).any (fun n0 => n0.id = key))
        n.id hq]
      exact seenLookup_insertAll_self (recs ++ env.mocks) _ n hn
    · rw [if_neg hlen]
      exact seenLookup_insertAll_self (recs ++ env.mocks) _ n hn

/-- C5 witness: concrete instantiation of the amended theorem — the update
step is delivery-independent at two distinct outcome assignments, and the
fetched record's id ends up in the seen map. -/
theorem seen_commit_ignores_delivery_witness :
    (exScreen.update (.RefreshComplete (.ok [exRec]))
        { exEnvFail with deliverOk := fun _ => false })
      = (exScreen.update (.RefreshComplete (.ok [exRec]))
        { exEnvFail with deliverOk := fun _ => true })
    ∧ (seenLookup
        ((exScreen.update (.RefreshComplete (.ok [exRec])) exEnvFail).1).seen_notification_timestamps
        exRec.id).isSome = true :=
  ⟨(seen_commit_ignores_delivery exScreen [exRec] exEnvFail
      (fun _ => false) (fun _ => true)).1,
   (seen_commit_ignores_delivery exScreen [exRec] exEnvFail
      (fun _ => false) (fun _ => true)).2 exRec (by decide)⟩

/-! ### Seen-map bound (C6) -/

theorem seenInsertAll_cons (m : SeenMap) (n : NotificationView)
    (ns : List NotificationView) :
    seenInsertAll m (n :: ns)
      = seenInsertAll (seenInsert m n.id n.updated_at) ns := rfl

theorem seenKeys_any_iff (m : SeenMap) (id : String) :
    m.any (fun kv => kv.1 = id) = true ↔ id ∈ seenKeys m := by
  rw [List.any_eq_true]
  unfold seenKeys
  constructor
  · rintro ⟨kv, hkv, hid⟩
    exact List.mem_map.mpr ⟨kv, hkv, of_decide_eq_true hid⟩
  · intro h
    rcases List.mem_map.mp h with ⟨kv, hkv, hid⟩
    exact ⟨kv, hkv, decide_eq_true hid⟩

theorem seenKeys_insert (m : SeenMap) (id : String) (ts : Int) :
    seenKeys (seenInsert m id ts)
      = if m.any (fun kv => kv.1 = id) then seenKeys m
        else seenKeys m ++ [id] := by
  unfold seenInsert seenKeys
  by_cases h : m.any (fun kv => kv.1 = id)
  · rw [if_pos h, if_pos h, List.map_map]
    apply List.map_congr_left
    intro kv _
    simp only [Function.comp_apply]
    by_cases hk : kv.1 = id
    · rw [if_pos hk, hk]
    · rw [if_neg hk]
  · rw [if_neg h, if_neg h, List.map_append]
    rfl

theorem seenKeys_insert_nodup (m : SeenMap) (id : String) (ts : Int)
    (h : (seenKeys m).Nodup) : (seenKeys (seenInsert m id ts)).Nodup := by
  rw [seenKeys_insert]
  by_cases hc : m.any (fun kv => kv.1 = id)
  · rw [if_pos hc]; exact h
  · rw [if_neg hc]
    rw [List.nodup_append]
    refine ⟨h, List.nodup_singleton id, ?_⟩
    intro x hx hxx
    obtain rfl := List.mem_singleton.mp hxx
    exact absurd ((seenKeys_any_iff m x).mpr hx) (by simpa using hc)

theorem seenKeys_insertAll_nodup (recs : List NotificationView) :
    ∀ m : SeenMap, (seenKeys m).Nodup →
      (seenKeys (seenInsertAll m recs)).Nodup := by
  induction recs with
  | nil => intro m h; exact h
  | cons n ns ih =>
    intro m h
    unfold seenInsertAll
    rw [List.foldl_cons]
    exact ih _ (seenKeys_insert_nodup m n.id n.updated_at h)

theorem seenKeys_insertAll_mem (recs : List NotificationView) :
    ∀ (m : SeenMap) (x : String), x ∈ seenKeys (seenInsertAll m recs) →
      x ∈ seenKeys m ∨ x ∈ recs.map (fun n => n.id) := by
  induction recs with
  | nil => intro m x h; exact Or.inl h
  | cons n ns ih =>
    intro m x h
    unfold seenInsertAll at h
    rw [List.foldl_cons] at h
    rcases ih _ x h with h1 | h1
    · rw [seenKeys_insert] at h1
      by_cases hc : m.any (fun kv => kv.1 = n.id)
      · rw [if_pos hc] at h1
        exact Or.inl h1
      · rw [if_neg hc] at h1
        rcases List.mem_append.mp h1 with h2 | h2
        · exact Or.inl h2
        · rcases List.mem_cons.mp h2 with rfl | h3
          · exact Or.inr (List.mem_map.mpr ⟨n, List.mem_cons_self _ _, rfl⟩)
          · simp at h3
    · rcases List.mem_map.mp h1 with ⟨n0, hn0, rfl⟩
      exact Or.inr (List.mem_map.mpr ⟨n0, List.mem_cons_of_mem _ hn0, rfl⟩)

theorem insertAll_length_fresh (recs : List NotificationView) :
    ∀ m : SeenMap, (recs.map (fun n => n.id)).Nodup →
      (∀ n ∈ recs, n.id ∉ seenKeys m) →
      (seenInsertAll m recs).length = m.length + recs.length := by
  induction recs with
  | nil => intro m _ _; simp [seenInsertAll]
  | cons n ns ih =>
    intro m hnodup hfresh
    rw [seenInsertAll_cons]
    have hany : m.any (fun kv => kv.1 = n.id) = false := by
      rw [Bool.eq_false_iff]
      intro hc
      exact hfresh n (List.mem_cons_self _ _) ((seenKeys_any_iff m n.id).mp hc)
    have hins : seenInsert m n.id n.updated_at = m ++ [(n.id, n.updated_at)] := by
      unfold seenInsert
      rw [if_neg (by simp [hany])]
    rw [hins]
    have hnodup' : (ns.map (fun n => n.id)).Nodup := by
      rw [List.map_cons] at hnodup
      exact hnodup.of_cons
    have hhead : n.id ∉ ns.map (fun n => n.id) := by
      rw [List.map_cons] at hnodup
      exact (List.nodup_cons.mp hnodup).1
    have hfresh' : ∀ t ∈ ns, t.id ∉ seenKeys (m ++ [(n.id, n.updated_at)]) := by
      intro t ht hmem
      have : seenKeys (m ++ [(n.id, n.updated_at)]) = seenKeys m ++ [n.id] := by
        unfold seenKeys
        rw [List.map_append]
        rfl
      rw [this] at hmem
      rcases List.mem_append.mp hmem with h2 | h2
      · exact hfresh t (List.mem_cons_of_mem _ ht) h2
      · have h3 := List.mem_singleton.mp h2
        exact hhead (List.mem_map.mpr ⟨t, ht, h3⟩)
    rw [ih (m ++ [(n.id, n.updated_at)]) hnodup' hfresh']
    simp [List.length_append]
    omega

/-- Injective id generator for the bulk counterexample records. -/
def natId (n : Nat) : String := String.mk (List.replicate n 'a')

theorem natId_injective : Function.Injective natId := by
  intro a b h
  have hlen : (natId a).data.length = (natId b).data.length := by rw [h]
  simpa [natId] using hlen

/-- One of the 501 pairwise-distinct counterexample records. -/
def cexRec (i : Nat) : NotificationView :=
  mkRec (natId i) "alice" "acme/app" .Issue .Comment true 0

/-- Fetch of 501 records with pairwise distinct ids. -/
def recs501 : List NotificationView := (List.range 501).map cexRec

theorem recs501_ids_nodup : (recs501.map (fun n => n.id)).Nodup := by
  unfold recs501
  rw [List.map_map]
  exact (List.nodup_range 501).map
    (fun a b h => natId_injective h)

/-- C6 counterexample: a single refresh fetching 501 distinct records
leaves the seen-timestamp map with 501 entries — the prune keeps every id
of the current fetch, so the map is not reduced to at most 500 entries. -/
theorem seen_bound_501_cex :
    ((exScreen.update (.RefreshComplete (.ok recs501)) exEnvFail).1).seen_notification_timestamps.length
      = 501
    ∧ ¬ (((exScreen.update (.RefreshComplete (.ok recs501)) exEnvFail).1).seen_notification_timestamps.length
        ≤ 500) := by
  have hm : recs501 ++ exEnvFail.mocks = recs501 := by
    simp [exEnvFail]
  have hfresh : ∀ n ∈ recs501,
      n.id ∉ seenKeys exScreen.seen_notification_timestamps := by
    intro n _ h
    simp [exScreen, seenKeys] at h
  have hlen : (seenInsertAll exScreen.seen_notification_timestamps recs501).length = 501 := by
    rw [insertAll_length_fresh recs501 _ recs501_ids_nodup hfresh]
    simp [exScreen, recs501]
  have hmain :
      ((exScreen.update (.RefreshComplete (.ok recs501)) exEnvFail).1).seen_notification_timestamps.length
        = 501 := by
    rw [update_refresh_ok_seen, hm, if_pos (by rw [hlen]; omega)]
    have hself : (seenInsertAll exScreen.seen_notification_timestamps recs501).filter
        (fun kv => recs501.any (fun n => n.id = kv.1))
        = seenInsertAll exScreen.seen_notification_timestamps recs501 := by
      rw [List.filter_eq_self]
      intro kv hkv
      have hkey : kv.1 ∈ seenKeys (seenInsertAll exScreen.seen_notification_timestamps recs501) :=
        List.mem_map.mpr ⟨kv, hkv, rfl⟩
      rcases seenKeys_insertAll_mem recs501 _ kv.1 hkey with h | h
      · simp [exScreen, seenKeys] at h
      · rcases List.mem_map.mp h with ⟨n, hn, hid⟩
        exact List.any_eq_true.mpr ⟨n, hn, decide_eq_true hid⟩
    rw [hself, hlen]
  exact ⟨hmain, by rw [hmain]; omega⟩

/-- C6 as amended: when the updated map exceeds 500 entries it is pruned
to exactly the entries whose ids appear in the current fetch, leaving at
most as many entries as fetched records — a bound that can itself exceed
500; below the threshold the updated map is kept whole, stale entries
included. -/
theorem seen_prune_exact (s : NotificationsScreen) (env : Env)
    (fetched : List NotificationView)
    (hnodup : (seenKeys s.seen_notification_timestamps).Nodup) :
    ((seenInsertAll s.seen_notification_timestamps (fetched ++ env.mocks)).length > 500 →
        ((s.update (.RefreshComplete (.ok fetched)) env).1).seen_notification_timestamps
          = (seenInsertAll s.seen_notification_timestamps (fetched ++ env.mocks)).filter
              (fun kv => (fetched ++ env.mocks).any (fun n => n.id = kv.1))
        ∧ ((s.update (.RefreshComplete (.ok fetched)) env).1).seen_notification_timestamps.length
            ≤ (fetched ++ env.mocks).length)
    ∧ (¬ (seenInsertAll s.seen_notification_timestamps (fetched ++ env.mocks)).length > 500 →
        ((s.update (.RefreshComplete (.ok fetched)) env).1).seen_notification_timestamps
          = seenInsertAll s.seen_notification_timestamps (fetched ++ env.mocks)) := by
  constructor
  · intro hlen
    constructor
    · rw [update_refresh_ok_seen, if_pos hlen]
    · rw [update_refresh_ok_seen, if_pos hlen]
      have hkeysnodup :
          (seenKeys (seenInsertAll s.seen_notification_timestamps (fetched ++ env.mocks))).Nodup :=
        seenKeys_insertAll_nodup (fetched ++ env.mocks) _ hnodup
      have hsubnodup :
          (seenKeys ((seenInsertAll s.seen_notification_timestamps (fetched ++ env.mocks)).filter
            (fun kv => (fetched ++ env.mocks).any (fun n => n.id = kv.1)))).Nodup :=
        hkeysnodup.sublist
          ((List.filter_sublist _).map (fun kv : String × Int => kv.1))
      have hsubset :
          (seenKeys ((seenInsertAll s.seen_notification_timestamps (fetched ++ env.mocks)).filter
            (fun kv => (fetched ++ env.mocks).any (fun n => n.id = kv.1))))
            ⊆ (fetched ++ env.mocks).map (fun n => n.id) := by
        intro x hx
        rcases List.mem_map.mp hx with ⟨kv, hkv, rfl⟩
        have hf := List.mem_filter.mp hkv
        rcases List.any_eq_true.mp hf.2 with ⟨n, hn, hid⟩
        exact List.mem_map.mpr ⟨n, hn, of_decide_eq_true hid⟩
      have hle := (hsubnodup.subperm hsubset).length_le
      simpa [seenKeys, List.length_map] using hle
  · intro hlen
    rw [update_refresh_ok_seen, if_neg hlen]

/-- C6 witness: concrete instantiation of the amended theorem on a
one-record fetch — below the threshold, the map after the refresh is
exactly the updated map. -/
theorem seen_prune_exact_witness :
    (seenKeys exScreen.seen_notification_timestamps).Nodup
    ∧ ((exScreen.update (.RefreshComplete (.ok [exRec])) exEnvFail).1).seen_notification_timestamps
        = seenInsertAll exScreen.seen_notification_timestamps ([exRec] ++ exEnvFail.mocks) :=
  ⟨by decide,
   (seen_prune_exact exScreen exEnvFail [exRec] (by decide)).2 (by decide)⟩

/-! ### Rule-set save failure is swallowed (C8) -/

theorem setFirst_toggle_type (id : String) (bv : Bool) :
    ∀ l : List TypeRule, (l.map (fun r => r.id)).Nodup →
      ∀ r ∈ setFirst (fun r => r.id = id)
          (fun r => { r with enabled := bv }) l,
        r.id = id → r.enabled = bv := by
  intro l
  induction l with
  | nil => intro _ r h; simp [setFirst] at h
  | cons x xs ih =>
    intro hnodup r hr hid
    rw [List.map_cons, List.nodup_cons] at hnodup
    rw [setFirst] at hr
    by_cases hx : x.id = id
    · rw [if_pos (decide_eq_true hx)] at hr
      rcases List.mem_cons.mp hr with rfl | hmem
      · rfl
      · exact absurd (List.mem_map.mpr ⟨r, hmem, hid.trans hx.symm⟩) hnodup.1
    · rw [if_neg (by simpa using hx)] at hr
      rcases List.mem_cons.mp hr with rfl | hmem
      · exact absurd hid hx
      · exact ih hnodup.2 r hmem hid

/-- C8.  Rule-edit handlers ignore the result of `rules.save()`: every
type-, account- and org-rule operation, and the whole-set enable toggle,
produce the same state and rule set under any two save outcomes, no
operation returns an error, and with a *failing* save the mutation is
still in place — a toggled rule carries its new enabled flag, a deleted
rule id is gone, and an added rule is present with the form's fields. -/
theorem rule_save_failure_swallowed (tstate : TypeRuleFormState)
    (astate : AccountRulesState) (rules : NotificationRuleSet)
    (freshId : String) (tmsg : TypeRuleMessage) (amsg : AccountRuleMessage)
    (omsg : OrgMessage) (b bv : Bool) (id emsg : String)
    (o1 o2 : SaveOutcome)
    (hnodup : (rules.type_rules.map (fun r => r.id)).Nodup) :
    (update_type_rule tstate tmsg rules freshId o1
        = update_type_rule tstate tmsg rules freshId o2)
    ∧ (update_account_rule astate amsg rules o1
        = update_account_rule astate amsg rules o2)
    ∧ (update_org_rule omsg rules freshId o1
        = update_org_rule omsg rules freshId o2)
    ∧ (set_rules_enabled rules b o1 = set_rules_enabled rules b o2)
    ∧ (∀ r ∈ (update_type_rule tstate (.Toggle id bv) rules freshId
          (.error emsg)).2.type_rules, r.id = id → r.enabled = bv)
    ∧ (∀ r ∈ (update_type_rule tstate (.Delete id) rules freshId
          (.error emsg)).2.type_rules, ¬ r.id = id)
    ∧ (∃ r ∈ (update_type_rule tstate .Add rules freshId
          (.error emsg)).2.type_rules,
        r.id = freshId ∧ r.notification_type = tstate.notification_type.label
        ∧ r.account = tstate.account ∧ r.priority = tstate.priority
        ∧ r.action = tstate.action ∧ r.enabled = true) := by
  refine ⟨?_, ?_, ?_, rfl, ?_, ?_, ?_⟩
  · cases tmsg <;> rfl
  · cases amsg <;> rfl
  · cases omsg <;> rfl
  · intro r hr hid
    exact setFirst_toggle_type id bv rules.type_rules hnodup r hr hid
  · intro r hr
    have := List.mem_filter.mp hr
    simpa using this.2
  · refine ⟨{ TypeRule.new freshId tstate.notification_type.label
        tstate.account tstate.priority with action := tstate.action },
      List.mem_append.mpr (Or.inr (List.mem_cons_self _ _)),
      rfl, rfl, rfl, rfl, rfl, rfl⟩

/-- Example form state of the type-rule editor. -/
def exFormState : TypeRuleFormState :=
  { notification_type := .Mention, account := none, priority := 0,
    action := .Show, expanded_groups := [] }

/-- Example state of the account-rules editor. -/
def exAccountState : AccountRulesState :=
  { selected_account_id := none, expanded_time_windows := [] }

/-- C8 witness: deleting the type rule `"t"` yields the same rule set
whether the save fails or succeeds, and with the failing save the rule is
indeed gone. -/
theorem rule_save_failure_swallowed_witness :
    (update_type_rule exFormState (.Delete "t") exRulesHideVsImp "fresh"
        (.error "disk")
      = update_type_rule exFormState (.Delete "t") exRulesHideVsImp "fresh"
        (.ok ()))
    ∧ (∀ r ∈ (update_type_rule exFormState (.Delete "t") exRulesHideVsImp
          "fresh" (.error "disk")).2.type_rules, ¬ r.id = "t") :=
  ⟨(rule_save_failure_swallowed exFormState exAccountState exRulesHideVsImp
      "fresh" (.Delete "t") (.Select "x") (.Delete "o") true true "t" "disk"
      (.error "disk") (.ok ()) (by decide)).1,
   (rule_save_failure_swallowed exFormState exAccountState exRulesHideVsImp
      "fresh" (.Delete "t") (.Select "x") (.Delete "o") true true "t" "disk"
      (.error "disk") (.ok ()) (by decide)).2.2.2.2.2.1⟩

end GitTop
